import Mathlib

/-!
# Verification of the `Model` wrapper and tagged codec (`src/models/model.rs`)

Shallow embedding of the DEVS model-wrapper layer:

* `F64` models the Rust `f64` time values as exact rationals plus `+∞`
  (the only values the spec admits for time bookkeeping).
* `Value` models `serde_yaml::Value` (ordered mappings as association lists).
* `AsModel` models the `AsModel` trait as a record of operations over an
  explicit state type `σ`; Rust `&mut self` methods become state-passing
  functions.  `ρ` is the opaque `UniformRNG` type, `μ` the opaque
  `ModelMessage` type, `ε` the opaque `SimulationError` type.
* `BoxAsModel` models `Box<dyn AsModel>`: an existentially quantified state
  packaged with its vtable.
* `Model` is the wrapper `{ id, inner }`, with `Model.serialize` /
  `Model.deserialize` embedding the `Serialize` / `Deserialize` impls.
* The concrete variants (`Generator`, `ExclusiveGateway`, `Processor`,
  `Storage`) and `ModelRepr`'s derived deserializer live outside this file's
  source; they are modelled from the spec where marked.
-/

/-- Model of Rust `f64` as used for simulation time: an exact finite value or
`+∞` (`f64::INFINITY`). NaN and the bit-level representation are not needed by
any property of this layer. -/
inductive F64 where
  | fin (q : Rat)
  | inf
deriving DecidableEq

/-- `0 ≤ x`, with `+∞` counting as non-negative (a valid DEVS horizon). -/
def F64.nonneg : F64 → Bool
  | .fin q => decide (0 ≤ q)
  | .inf => true

/-- Model of `serde_yaml::Value`: YAML scalars, sequences, and ordered
mappings (serde_yaml mappings preserve insertion order, embedded as
association lists). -/
inductive Value where
  | null
  | bool (b : Bool)
  | number (n : Rat)
  | str (s : String)
  | sequence (xs : List Value)
  | mapping (entries : List (Value × Value))

/-- Does a YAML key equal the string `k`? -/
def keyIs (k : String) : Value → Bool
  | .str s => s == k
  | _ => false

/-- The entry list of a mapping; any non-mapping value carries no fields. -/
def Value.extraFields : Value → List (Value × Value)
  | .mapping l => l
  | _ => []

/-- Is the value a YAML mapping? -/
def Value.isMapping : Value → Bool
  | .mapping _ => true
  | _ => false

/-- The `AsModel` trait (src lines 139-158) as a record of operations over an
explicit state type `σ`.  Rust's `&mut self` receivers become state-passing:
`events_ext`/`events_int` also thread the `&mut UniformRNG` argument through.
The field defaults are the trait's provided defaults for `get_type` and
`serialize`. -/
structure AsModel (σ ρ μ ε : Type) where
  get_type : σ → String := fun _ => ""
  serialize : σ → Value := fun _ => Value.null
  status : σ → String
  events_ext : σ → ρ → μ → σ × ρ × Except ε (List μ)
  events_int : σ → ρ → σ × ρ × Except ε (List μ)
  time_advance : σ → F64 → σ
  until_next_event : σ → F64

/-- `Box<dyn AsModel>`: a concrete state type, its `AsModel` implementation,
and the owned state value. -/
structure BoxAsModel (ρ μ ε : Type) : Type 1 where
  σ : Type
  cap : AsModel σ ρ μ ε
  state : σ

/-- The `Model` struct (src lines 12-16): an id together with an owned boxed
`AsModel` value. -/
structure Model (ρ μ ε : Type) : Type 1 where
  id : String
  inner : BoxAsModel ρ μ ε

/-- `Model::new` (src lines 19-21): stores the pair, no validation. -/
def Model.new (id : String) (inner : BoxAsModel ρ μ ε) : Model ρ μ ε :=
  ⟨id, inner⟩

/-- `ModelClone::clone_box` (src lines 32-39): `Box::new(self.clone())`, i.e.
a freshly boxed value-copy of the state.  (The concrete variants' `Clone`
impls are outside this source; per the spec the copy carries the full state
value.) -/
def ModelClone.clone_box (b : BoxAsModel ρ μ ε) : BoxAsModel ρ μ ε :=
  ⟨b.σ, b.cap, b.state⟩

/-- `#[derive(Clone)]` on `Model`: clone the id and `clone_box` the inner
box. -/
def Model.clone (m : Model ρ μ ε) : Model ρ μ ε :=
  ⟨m.id, ModelClone.clone_box m.inner⟩

/-- `impl AsModel for Model`, `status` (src lines 105-107): forward to
`inner`. -/
def Model.status (m : Model ρ μ ε) : String :=
  m.inner.cap.status m.inner.state

/-- `impl AsModel for Model`, `events_ext` (src lines 109-115): forward to
`inner`; the updated inner state is stored back, id untouched. -/
def Model.events_ext (m : Model ρ μ ε) (uniform_rng : ρ) (incoming_message : μ) :
    Model ρ μ ε × ρ × Except ε (List μ) :=
  let r := m.inner.cap.events_ext m.inner.state uniform_rng incoming_message
  (⟨m.id, ⟨m.inner.σ, m.inner.cap, r.1⟩⟩, r.2.1, r.2.2)

/-- `impl AsModel for Model`, `events_int` (src lines 117-122): forward to
`inner`. -/
def Model.events_int (m : Model ρ μ ε) (uniform_rng : ρ) :
    Model ρ μ ε × ρ × Except ε (List μ) :=
  let r := m.inner.cap.events_int m.inner.state uniform_rng
  (⟨m.id, ⟨m.inner.σ, m.inner.cap, r.1⟩⟩, r.2.1, r.2.2)

/-- `impl AsModel for Model`, `time_advance` (src lines 124-126): forward to
`inner`. -/
def Model.time_advance (m : Model ρ μ ε) (time_delta : F64) : Model ρ μ ε :=
  ⟨m.id, ⟨m.inner.σ, m.inner.cap, m.inner.cap.time_advance m.inner.state time_delta⟩⟩

/-- `impl AsModel for Model`, `until_next_event` (src lines 128-130): forward
to `inner`. -/
def Model.until_next_event (m : Model ρ μ ε) : F64 :=
  m.inner.cap.until_next_event m.inner.state

/-- `impl Serialize for Model` (src lines 47-60): emit `id`, then `type`
(= `inner.get_type()`), then—only when `inner.serialize()` is a mapping—each
of its entries in order, flattened at top level. -/
def Model.serialize (m : Model ρ μ ε) : Value :=
  let extra_fields := m.inner.cap.serialize m.inner.state
  let base := [(Value.str "id", Value.str m.id),
               (Value.str "type", Value.str (m.inner.cap.get_type m.inner.state))]
  match extra_fields with
  | .mapping map => .mapping (base ++ map)
  | _ => .mapping base

/-- The tagged intermediate representation `{ id, model_type, extra }`. -/
structure ModelRepr where
  id : String
  model_type : String
  extra : Value

/-- Errors of the deserialization path: a `ModelRepr`-level parse error, a
variant decode error wrapped by `de::Error::custom`, and
`de::Error::unknown_variant` carrying the offending tag and the expected
list. -/
inductive DecodeError where
  | reprError (msg : String)
  | custom (msg : String)
  | unknownVariant (tag : String) (expected : List String)
deriving DecidableEq

/-- First value in the entry list under the string key `k`. -/
def lookupField (entries : List (Value × Value)) (k : String) : Option Value :=
  (entries.find? (fun kv => keyIs k kv.1)).map Prod.snd

/-- The entries whose key is neither `id` nor `type`. -/
def removeReserved (entries : List (Value × Value)) : List (Value × Value) :=
  entries.filter (fun kv => !keyIs "id" kv.1 && !keyIs "type" kv.1)

/-- Modelled from the spec: `ModelRepr`'s derived deserializer (the struct
lives in the `models` module outside this source file).  Per spec section 3,
it parses the raw mapping into `{id, model_type, extra}`, collecting every
field other than `id`/`type` into `extra` in original order, and fails when
the input is not a mapping or `id`/`type` are missing or not strings. -/
def ModelRepr.deserialize (v : Value) : Except DecodeError ModelRepr :=
  match v with
  | .mapping entries =>
    match lookupField entries "id", lookupField entries "type" with
    | some (.str i), some (.str t) => .ok ⟨i, t, .mapping (removeReserved entries)⟩
    | _, _ => .error (.reprError "missing or mistyped id or type")
  | _ => .error (.reprError "expected a mapping")

/-- Modelled from the spec: the four concrete variant decoders
(`serde_yaml::from_value::<Generator>` etc.; the variant types live outside
this source file).  Each decodes the `extra` value into its concrete state,
failing with a message when required fields are absent or mistyped, and boxes
the result as the capability type. -/
structure VariantDecoders (ρ μ ε : Type) : Type 1 where
  generator : Value → Except String (BoxAsModel ρ μ ε)
  exclusive_gateway : Value → Except String (BoxAsModel ρ μ ε)
  processor : Value → Except String (BoxAsModel ρ μ ε)
  storage : Value → Except String (BoxAsModel ρ μ ε)

/-- `VARIANTS` (src lines 65-67): the closed tag list in declared order. -/
def VARIANTS : List String :=
  ["Generator", "ExclusiveGateway", "Processor", "Storage"]

/-- The decoder a tag dispatches to, `none` for an unknown tag. -/
def VariantDecoders.decoderFor (reg : VariantDecoders ρ μ ε) :
    String → Option (Value → Except String (BoxAsModel ρ μ ε))
  | "Generator" => some reg.generator
  | "ExclusiveGateway" => some reg.exclusive_gateway
  | "Processor" => some reg.processor
  | "Storage" => some reg.storage
  | _ => none

/-- The tail of each known-tag branch: wrap a successful variant decode as
`Model::new(id, Box::new(v))`, and a failure as `de::Error::custom`. -/
def dispatchResult (r : Except String (BoxAsModel ρ μ ε)) (id : String) :
    Except DecodeError (Model ρ μ ε) :=
  match r with
  | .ok b => .ok (Model.new id b)
  | .error e => .error (.custom e)

/-- The dispatch part of `impl Deserialize for Model` (src lines 65-100):
match `model_type` against the closed registry; unknown tags fail with
`unknown_variant(tag, VARIANTS)`.  The four concrete decoders are the `reg`
parameter (their code lives outside this source file). -/
def Model.deserializeRepr (reg : VariantDecoders ρ μ ε) (model_repr : ModelRepr) :
    Except DecodeError (Model ρ μ ε) :=
  match model_repr.model_type with
    | "Generator" =>
      match reg.generator model_repr.extra with
      | .ok generator => .ok (Model.new model_repr.id generator)
      | .error e => .error (.custom e)
    | "ExclusiveGateway" =>
      match reg.exclusive_gateway model_repr.extra with
      | .ok exclusive_gateway => .ok (Model.new model_repr.id exclusive_gateway)
      | .error e => .error (.custom e)
    | "Processor" =>
      match reg.processor model_repr.extra with
      | .ok processor => .ok (Model.new model_repr.id processor)
      | .error e => .error (.custom e)
    | "Storage" =>
      match reg.storage model_repr.extra with
      | .ok storage => .ok (Model.new model_repr.id storage)
      | .error e => .error (.custom e)
    | other => .error (.unknownVariant other VARIANTS)

/-- `impl Deserialize for Model` (src lines 62-101): deserialize a
`ModelRepr` (the `?` operator propagating its error), then dispatch on the
tag. -/
def Model.deserialize (reg : VariantDecoders ρ μ ε) (v : Value) :
    Except DecodeError (Model ρ μ ε) :=
  match ModelRepr.deserialize v with
  | .error e => .error e
  | .ok model_repr => Model.deserializeRepr reg model_repr

/-! ## A store model of `Box` ownership

`Box<dyn AsModel>` owns a heap allocation; `clone_box` is
`Box::new(self.clone())`, a fresh allocation holding a copy.  To state clone
independence as a frame property we make the allocations explicit: a `Heap`
of states indexed by pointers, and `HModel` holding an id and a pointer.
(For simplicity all boxes in one heap share the state type `σ`; the claims
quantify over `σ`.) -/

/-- A heap of boxed states: the next fresh pointer and the contents. -/
structure Heap (σ : Type) where
  next : Nat
  mem : Nat → σ

/-- Allocate a fresh box holding `s`; returns the heap and the new pointer. -/
def Heap.alloc (h : Heap σ) (s : σ) : Heap σ × Nat :=
  (⟨h.next + 1, fun n => if n = h.next then s else h.mem n⟩, h.next)

/-- Overwrite the box at `p`. -/
def Heap.write (h : Heap σ) (p : Nat) (s : σ) : Heap σ :=
  ⟨h.next, fun n => if n = p then s else h.mem n⟩

/-- A `Model` whose inner box is an explicit heap allocation. -/
structure HModel where
  id : String
  ptr : Nat

/-- `Model::clone` in the store model: copy the id and `clone_box` the inner
value into a fresh allocation (`Box::new(self.clone())`). -/
def HModel.clone (h : Heap σ) (m : HModel) : Heap σ × HModel :=
  let r := h.alloc (h.mem m.ptr)
  (r.1, ⟨m.id, r.2⟩)

/-- `Model::time_advance` in the store model: mutate the inner state in
place through the owned pointer. -/
def HModel.time_advance (cap : AsModel σ ρ μ ε) (h : Heap σ) (m : HModel)
    (time_delta : F64) : Heap σ :=
  h.write m.ptr (cap.time_advance (h.mem m.ptr) time_delta)

/-- `Model::until_next_event` in the store model: read through the pointer
and forward. -/
def HModel.until_next_event (cap : AsModel σ ρ μ ε) (h : Heap σ) (m : HModel) : F64 :=
  cap.until_next_event (h.mem m.ptr)

/-! ## A recording fake capability (spec section 8, delegation fidelity) -/

/-- One recorded call to a behavioral method, with its arguments. -/
inductive Call (ρ μ : Type) where
  | extCall (rng : ρ) (msg : μ)
  | intCall (rng : ρ)
  | advCall (d : F64)

/-- A minimal capability implementation whose state is the list of calls
received so far, in order, with their arguments. -/
def loggingCap (ρ μ ε : Type) : AsModel (List (Call ρ μ)) ρ μ ε :=
  { status := fun _ => "log"
    events_ext := fun log rng msg => (log ++ [Call.extCall rng msg], rng, .ok [])
    events_int := fun log rng => (log ++ [Call.intCall rng], rng, .ok [])
    time_advance := fun log d => log ++ [Call.advCall d]
    until_next_event := fun _ => F64.inf }

/-! ## Concrete fixtures used by the witness theorems -/

/-- A `Processor`-tagged capability over a unit state whose extra fields are
the spec's example `{a: 1, b: 2}`. -/
def exampleProcessorCap : AsModel Unit Unit Unit String :=
  { get_type := fun _ => "Processor"
    serialize := fun _ => Value.mapping
      [(Value.str "a", Value.number 1), (Value.str "b", Value.number 2)]
    status := fun _ => ""
    events_ext := fun s r _ => (s, r, .ok [])
    events_int := fun s r => (s, r, .ok [])
    time_advance := fun s _ => s
    until_next_event := fun _ => F64.inf }

/-- A `Processor`-tagged capability whose state is its own serialized value:
the generic shape of a config-carrying variant. -/
def valueStoreCap : AsModel Value Unit Unit String :=
  { get_type := fun _ => "Processor"
    serialize := fun s => s
    status := fun _ => ""
    events_ext := fun s r _ => (s, r, .ok [])
    events_int := fun s r => (s, r, .ok [])
    time_advance := fun s _ => s
    until_next_event := fun _ => F64.inf }

/-- A capability that keeps the trait defaults for `get_type` and
`serialize`. -/
def exampleDefaultCap : AsModel Unit Unit Unit String :=
  { status := fun _ => ""
    events_ext := fun s r _ => (s, r, .ok [])
    events_int := fun s r => (s, r, .ok [])
    time_advance := fun s _ => s
    until_next_event := fun _ => F64.inf }

/-- A concrete decoder registry: `Processor` stores the received extra value
in a `valueStoreCap` box, the other tags reject. -/
def exampleDecoders : VariantDecoders Unit Unit String :=
  { generator := fun _ => .error "unsupported"
    exclusive_gateway := fun _ => .error "unsupported"
    processor := fun ex => .ok ⟨Value, valueStoreCap, ex⟩
    storage := fun _ => .error "unsupported" }

/-- The model `id = "m1"` over `exampleProcessorCap` (spec section 8's
flatten example). -/
def exampleModel : Model Unit Unit String :=
  ⟨"m1", ⟨Unit, exampleProcessorCap, ()⟩⟩

/-- A model over the all-defaults capability (serialize is null). -/
def exampleNullModel : Model Unit Unit String :=
  ⟨"n1", ⟨Unit, exampleDefaultCap, ()⟩⟩

/-- A model whose variant serializes a field literally named `id`. -/
def exampleCollisionModel : Model Unit Unit String :=
  ⟨"c1", ⟨Value, valueStoreCap, Value.mapping [(Value.str "id", Value.number 5)]⟩⟩

/-- The spec's unknown-tag input `{id: "x", type: "Bogus"}`. -/
def exampleBogusInput : Value :=
  Value.mapping [(Value.str "id", Value.str "x"), (Value.str "type", Value.str "Bogus")]

/-- A known-tag input `{id: "x", type: "Processor", a: 1}`. -/
def exampleProcessorInput : Value :=
  Value.mapping [(Value.str "id", Value.str "x"), (Value.str "type", Value.str "Processor"),
                 (Value.str "a", Value.number 1)]

/-- A capability over `F64` state: `time_advance` stores the delta,
`until_next_event` reads the state. -/
def exampleTimeCap : AsModel F64 Unit Unit String :=
  { status := fun _ => ""
    events_ext := fun s r _ => (s, r, .ok [])
    events_int := fun s r => (s, r, .ok [])
    time_advance := fun _ d => d
    until_next_event := fun s => s }

/-- A one-box heap whose box 0 holds `F64.fin 0`. -/
def exampleHeap : Heap F64 :=
  ⟨1, fun _ => F64.fin 0⟩

/-- The model owning box 0 of `exampleHeap`. -/
def exampleHModel : HModel :=
  ⟨"m", 0⟩

/-! ## Helper lemmas -/

/-- `Model.serialize` always yields the two reserved entries followed by the
extra fields (empty when `inner.serialize()` is not a mapping). -/
theorem Model.serialize_eq (m : Model ρ μ ε) :
    Model.serialize m = Value.mapping
      ([(Value.str "id", Value.str m.id),
        (Value.str "type", Value.str (m.inner.cap.get_type m.inner.state))] ++
       (m.inner.cap.serialize m.inner.state).extraFields) := by
  unfold Model.serialize
  cases h : m.inner.cap.serialize m.inner.state <;> simp [Value.extraFields, h]

/-- Deserializing the output of `Model.serialize` recovers the id, the tag,
and the extra fields, provided no extra field uses a reserved key. -/
theorem ModelRepr.deserialize_serialize (m : Model ρ μ ε)
    (hkeys : ∀ kv ∈ (m.inner.cap.serialize m.inner.state).extraFields,
      keyIs "id" kv.1 = false ∧ keyIs "type" kv.1 = false) :
    ModelRepr.deserialize (Model.serialize m) =
      .ok ⟨m.id, m.inner.cap.get_type m.inner.state,
           Value.mapping (m.inner.cap.serialize m.inner.state).extraFields⟩ := by
  rw [Model.serialize_eq]
  have hfilter : removeReserved
      ([(Value.str "id", Value.str m.id),
        (Value.str "type", Value.str (m.inner.cap.get_type m.inner.state))] ++
       (m.inner.cap.serialize m.inner.state).extraFields) =
      (m.inner.cap.serialize m.inner.state).extraFields := by
    unfold removeReserved
    rw [List.filter_append]
    have h1 : (List.filter (fun kv => !keyIs "id" kv.1 && !keyIs "type" kv.1)
        [((Value.str "id", Value.str m.id) : Value × Value),
         (Value.str "type", Value.str (m.inner.cap.get_type m.inner.state))]) = [] := by
      simp [List.filter, keyIs]
    rw [h1, List.nil_append]
    rw [List.filter_eq_self]
    intro kv hkv
    simp [(hkeys kv hkv).1, (hkeys kv hkv).2]
  have hstep : ModelRepr.deserialize (Value.mapping
      ([(Value.str "id", Value.str m.id),
        (Value.str "type", Value.str (m.inner.cap.get_type m.inner.state))] ++
       (m.inner.cap.serialize m.inner.state).extraFields)) =
      .ok ⟨m.id, m.inner.cap.get_type m.inner.state,
           Value.mapping (removeReserved
             ([(Value.str "id", Value.str m.id),
               (Value.str "type", Value.str (m.inner.cap.get_type m.inner.state))] ++
              (m.inner.cap.serialize m.inner.state).extraFields))⟩ := rfl
  rw [hstep, hfilter]

/-- Unfolding step: once the representation parses, deserialization is the
dispatch on it. -/
theorem Model.deserialize_ok (reg : VariantDecoders ρ μ ε) (v : Value)
    (model_repr : ModelRepr)
    (hrepr : ModelRepr.deserialize v = .ok model_repr) :
    Model.deserialize reg v = Model.deserializeRepr reg model_repr := by
  unfold Model.deserialize
  rw [hrepr]

/-- A tag outside `VARIANTS` resolves to no decoder. -/
theorem VariantDecoders.decoderFor_eq_none (reg : VariantDecoders ρ μ ε) (t : String)
    (h : t ∉ VARIANTS) : reg.decoderFor t = none := by
  unfold VariantDecoders.decoderFor
  split
  all_goals first
    | rfl
    | exact absurd (by decide) h

/-- Per-tag dispatch equations. -/
theorem Model.deserializeRepr_generator (reg : VariantDecoders ρ μ ε) (i : String)
    (ex : Value) :
    Model.deserializeRepr reg ⟨i, "Generator", ex⟩ = dispatchResult (reg.generator ex) i := rfl

theorem Model.deserializeRepr_exclusive_gateway (reg : VariantDecoders ρ μ ε) (i : String)
    (ex : Value) :
    Model.deserializeRepr reg ⟨i, "ExclusiveGateway", ex⟩ =
      dispatchResult (reg.exclusive_gateway ex) i := rfl

theorem Model.deserializeRepr_processor (reg : VariantDecoders ρ μ ε) (i : String)
    (ex : Value) :
    Model.deserializeRepr reg ⟨i, "Processor", ex⟩ = dispatchResult (reg.processor ex) i := rfl

theorem Model.deserializeRepr_storage (reg : VariantDecoders ρ μ ε) (i : String)
    (ex : Value) :
    Model.deserializeRepr reg ⟨i, "Storage", ex⟩ = dispatchResult (reg.storage ex) i := rfl

/-- Dispatch over an arbitrary known tag: when the tag resolves in the
registry, dispatch applies exactly that decoder. -/
theorem Model.deserializeRepr_known (reg : VariantDecoders ρ μ ε)
    (model_repr : ModelRepr) (d : Value → Except String (BoxAsModel ρ μ ε))
    (hd : reg.decoderFor model_repr.model_type = some d) :
    Model.deserializeRepr reg model_repr = dispatchResult (d model_repr.extra) model_repr.id := by
  obtain ⟨i, t, ex⟩ := model_repr
  by_cases h1 : t = "Generator"
  · subst h1
    have hg : reg.generator = d := by injection hd
    rw [Model.deserializeRepr_generator, hg]
  by_cases h2 : t = "ExclusiveGateway"
  · subst h2
    have hg : reg.exclusive_gateway = d := by injection hd
    rw [Model.deserializeRepr_exclusive_gateway, hg]
  by_cases h3 : t = "Processor"
  · subst h3
    have hg : reg.processor = d := by injection hd
    rw [Model.deserializeRepr_processor, hg]
  by_cases h4 : t = "Storage"
  · subst h4
    have hg : reg.storage = d := by injection hd
    rw [Model.deserializeRepr_storage, hg]
  have hnone : reg.decoderFor t = none := by
    apply VariantDecoders.decoderFor_eq_none
    simp [VARIANTS, h1, h2, h3, h4]
  rw [hnone] at hd
  exact Option.noConfusion hd

/-- Dispatch over an unknown tag fails with the unknown-variant error. -/
theorem Model.deserializeRepr_unknown (reg : VariantDecoders ρ μ ε)
    (model_repr : ModelRepr) (hunk : model_repr.model_type ∉ VARIANTS) :
    Model.deserializeRepr reg model_repr =
      .error (.unknownVariant model_repr.model_type VARIANTS) := by
  unfold Model.deserializeRepr
  split
  all_goals first
    | rfl
    | (rename_i heq; rw [heq] at hunk; exact absurd (by decide) hunk)

/-- Extracting the `extra` component of a successful `ModelRepr` parse of a
mapping: it is exactly the entries other than `id`/`type`. -/
theorem ModelRepr.deserialize_ok_extra (entries : List (Value × Value))
    (model_repr : ModelRepr)
    (hrepr : ModelRepr.deserialize (Value.mapping entries) = .ok model_repr) :
    model_repr.extra = Value.mapping (removeReserved entries) := by
  simp only [ModelRepr.deserialize] at hrepr
  split at hrepr
  · injection hrepr with h
    rw [← h]
  · exact Except.noConfusion hrepr

/-! ## Claim theorems -/

/-- C1: for every model whose type tag resolves in the registry and whose
variant codec inverts the encoding of its extra fields (the spec's
"representative instance": no reserved-key collision, decoder accepts the
serialized fields and reproduces them), deserializing the serialization
reproduces the model's id, its type tag, and exactly the extra fields
produced by `serialize()`. -/
theorem Model.deserialize_serialize_roundtrip (reg : VariantDecoders ρ μ ε)
    (m : Model ρ μ ε) (d : Value → Except String (BoxAsModel ρ μ ε))
    (b : BoxAsModel ρ μ ε)
    (hkeys : ∀ kv ∈ (m.inner.cap.serialize m.inner.state).extraFields,
      keyIs "id" kv.1 = false ∧ keyIs "type" kv.1 = false)
    (hd : reg.decoderFor (m.inner.cap.get_type m.inner.state) = some d)
    (hdec : d (Value.mapping (m.inner.cap.serialize m.inner.state).extraFields) = .ok b)
    (htag : b.cap.get_type b.state = m.inner.cap.get_type m.inner.state)
    (hser : (b.cap.serialize b.state).extraFields =
      (m.inner.cap.serialize m.inner.state).extraFields) :
    ∃ m2 : Model ρ μ ε,
      Model.deserialize reg (Model.serialize m) = .ok m2 ∧
      m2.id = m.id ∧
      m2.inner.cap.get_type m2.inner.state = m.inner.cap.get_type m.inner.state ∧
      (m2.inner.cap.serialize m2.inner.state).extraFields =
        (m.inner.cap.serialize m.inner.state).extraFields := by
  refine ⟨Model.new m.id b, ?_, rfl, htag, hser⟩
  rw [Model.deserialize_ok reg _ _ (ModelRepr.deserialize_serialize m hkeys)]
  rw [Model.deserializeRepr_known reg _ d hd]
  simp [dispatchResult, hdec]

/-- C2: serialization always yields a flat mapping whose first entry is `id`
and second is `type` (= `inner.get_type()`); when `inner.serialize()` is a
mapping its entries follow in original order, otherwise nothing follows. -/
theorem Model.serialize_flat_layout (m : Model ρ μ ε) :
    (∀ map, m.inner.cap.serialize m.inner.state = Value.mapping map →
      Model.serialize m = Value.mapping
        ((Value.str "id", Value.str m.id) ::
         (Value.str "type", Value.str (m.inner.cap.get_type m.inner.state)) :: map)) ∧
    ((m.inner.cap.serialize m.inner.state).isMapping = false →
      Model.serialize m = Value.mapping
        [(Value.str "id", Value.str m.id),
         (Value.str "type", Value.str (m.inner.cap.get_type m.inner.state))]) := by
  constructor
  · intro map hmap
    rw [Model.serialize_eq, hmap]
    rfl
  · intro hnm
    rw [Model.serialize_eq]
    cases h : m.inner.cap.serialize m.inner.state <;>
      simp_all [Value.extraFields, Value.isMapping]

/-- C3: deserializing any input whose parsed type tag is outside the known
set fails with the unknown-variant error naming the offending tag and
carrying exactly the known tags in their declared order. -/
theorem Model.deserialize_unknown_variant (reg : VariantDecoders ρ μ ε)
    (v : Value) (model_repr : ModelRepr)
    (hrepr : ModelRepr.deserialize v = .ok model_repr)
    (hunk : model_repr.model_type ∉ VARIANTS) :
    Model.deserialize reg v =
      .error (.unknownVariant model_repr.model_type VARIANTS) := by
  rw [Model.deserialize_ok reg v model_repr hrepr]
  exact Model.deserializeRepr_unknown reg model_repr hunk

/-- C4: when the parsed tag is a known tag, the fields other than `id`/`type`
are collected as `extra`, the tag's variant decoder is applied to `extra`
(its failure becoming a decode error), and a success is boxed and wrapped in
a `Model` carrying the parsed id. -/
theorem Model.deserialize_known_tag_dispatch (reg : VariantDecoders ρ μ ε)
    (entries : List (Value × Value)) (model_repr : ModelRepr)
    (hrepr : ModelRepr.deserialize (Value.mapping entries) = .ok model_repr) :
    model_repr.extra = Value.mapping (removeReserved entries) ∧
    (model_repr.model_type = "Generator" →
      Model.deserialize reg (Value.mapping entries) =
        dispatchResult (reg.generator model_repr.extra) model_repr.id) ∧
    (model_repr.model_type = "ExclusiveGateway" →
      Model.deserialize reg (Value.mapping entries) =
        dispatchResult (reg.exclusive_gateway model_repr.extra) model_repr.id) ∧
    (model_repr.model_type = "Processor" →
      Model.deserialize reg (Value.mapping entries) =
        dispatchResult (reg.processor model_repr.extra) model_repr.id) ∧
    (model_repr.model_type = "Storage" →
      Model.deserialize reg (Value.mapping entries) =
        dispatchResult (reg.storage model_repr.extra) model_repr.id) := by
  refine ⟨ModelRepr.deserialize_ok_extra entries model_repr hrepr, ?_, ?_, ?_, ?_⟩ <;>
    intro ht <;> rw [Model.deserialize_ok reg _ _ hrepr]
  · exact Model.deserializeRepr_known reg model_repr reg.generator (by rw [ht]; rfl)
  · exact Model.deserializeRepr_known reg model_repr reg.exclusive_gateway (by rw [ht]; rfl)
  · exact Model.deserializeRepr_known reg model_repr reg.processor (by rw [ht]; rfl)
  · exact Model.deserializeRepr_known reg model_repr reg.storage (by rw [ht]; rfl)

/-- C5: every behavioral method of `Model` forwards to `inner` with
unmodified arguments and returns the inner result unmodified, leaving the id
and the capability in place; on the recording fake capability each mutating
call appends exactly one record carrying the exact arguments. -/
theorem Model.delegation_fidelity (m : Model ρ μ ε) (uniform_rng : ρ)
    (incoming_message : μ) (time_delta : F64) (i : String)
    (log : List (Call ρ μ)) (rng2 : ρ) (msg2 : μ) :
    Model.status m = m.inner.cap.status m.inner.state ∧
    (Model.events_ext m uniform_rng incoming_message).2 =
      (m.inner.cap.events_ext m.inner.state uniform_rng incoming_message).2 ∧
    (Model.events_ext m uniform_rng incoming_message).1.inner =
      ⟨m.inner.σ, m.inner.cap,
       (m.inner.cap.events_ext m.inner.state uniform_rng incoming_message).1⟩ ∧
    (Model.events_int m uniform_rng).2 =
      (m.inner.cap.events_int m.inner.state uniform_rng).2 ∧
    (Model.events_int m uniform_rng).1.inner =
      ⟨m.inner.σ, m.inner.cap, (m.inner.cap.events_int m.inner.state uniform_rng).1⟩ ∧
    Model.time_advance m time_delta =
      ⟨m.id, ⟨m.inner.σ, m.inner.cap,
              m.inner.cap.time_advance m.inner.state time_delta⟩⟩ ∧
    Model.until_next_event m = m.inner.cap.until_next_event m.inner.state ∧
    (Model.events_ext (Model.new i ⟨List (Call ρ μ), loggingCap ρ μ ε, log⟩)
        rng2 msg2).1.inner.state = log ++ [Call.extCall rng2 msg2] ∧
    (Model.events_int (Model.new i ⟨List (Call ρ μ), loggingCap ρ μ ε, log⟩)
        rng2).1.inner.state = log ++ [Call.intCall rng2] ∧
    (Model.time_advance (Model.new i ⟨List (Call ρ μ), loggingCap ρ μ ε, log⟩)
        time_delta).inner.state = log ++ [Call.advCall time_delta] :=
  ⟨rfl, rfl, rfl, rfl, rfl, rfl, rfl, rfl, rfl, rfl⟩

/-- C6: cloning allocates a fresh box (distinct pointer), so advancing the
clone's time leaves the original's `until_next_event` unchanged while the
clone's reflects the update. -/
theorem HModel.clone_independence (cap : AsModel σ ρ μ ε) (h : Heap σ)
    (m : HModel) (time_delta : F64) (hvalid : m.ptr < h.next) :
    (HModel.clone h m).2.ptr ≠ m.ptr ∧
    HModel.until_next_event cap
        (HModel.time_advance cap (HModel.clone h m).1 (HModel.clone h m).2 time_delta) m =
      HModel.until_next_event cap h m ∧
    HModel.until_next_event cap
        (HModel.time_advance cap (HModel.clone h m).1 (HModel.clone h m).2 time_delta)
        (HModel.clone h m).2 =
      cap.until_next_event (cap.time_advance (h.mem m.ptr) time_delta) := by
  have hne : m.ptr ≠ h.next := Nat.ne_of_lt hvalid
  refine ⟨fun hc => hne hc.symm, ?_, ?_⟩
  · simp [HModel.clone, Heap.alloc, Heap.write, HModel.time_advance,
      HModel.until_next_event, hne]
  · simp [HModel.clone, Heap.alloc, Heap.write, HModel.time_advance,
      HModel.until_next_event]

/-- C7: the id given to `Model::new` is stored unvalidated and returned by
`id()`, and no behavioral call or clone ever changes it. -/
theorem Model.id_immutable (i : String) (b : BoxAsModel ρ μ ε) (m : Model ρ μ ε)
    (uniform_rng : ρ) (incoming_message : μ) (time_delta : F64) :
    (Model.new i b).id = i ∧
    Model.new i b = ⟨i, b⟩ ∧
    (Model.events_ext m uniform_rng incoming_message).1.id = m.id ∧
    (Model.events_int m uniform_rng).1.id = m.id ∧
    (Model.time_advance m time_delta).id = m.id ∧
    (Model.clone m).id = m.id :=
  ⟨rfl, rfl, rfl, rfl, rfl, rfl⟩

/-- C8: `time_advance` and `until_next_event` have no error channel: for any
model and valid (non-negative) delta, `time_advance` returns the updated
model (never a failure value) and `until_next_event` returns the inner
horizon, which is non-negative (finite `≥ 0` or `+∞`) whenever the inner
variant meets its contract. -/
theorem Model.time_bookkeeping_infallible (m : Model ρ μ ε) (time_delta : F64)
    (hcap : ∀ s : m.inner.σ, (m.inner.cap.until_next_event s).nonneg = true)
    (_hd : time_delta.nonneg = true) :
    (Model.until_next_event m).nonneg = true ∧
    Model.time_advance m time_delta =
      Model.mk m.id ⟨m.inner.σ, m.inner.cap,
        m.inner.cap.time_advance m.inner.state time_delta⟩ ∧
    (Model.until_next_event (Model.time_advance m time_delta)).nonneg = true :=
  ⟨hcap m.inner.state, rfl, hcap (m.inner.cap.time_advance m.inner.state time_delta)⟩

/-- C9: a capability implementation that keeps the trait defaults has
`get_type()` returning the empty string and `serialize()` returning `null`
(the no-extra-data marker), with no error channel. -/
theorem AsModel.default_get_type_serialize (σ ρ μ ε : Type) (st : σ → String)
    (ee : σ → ρ → μ → σ × ρ × Except ε (List μ))
    (ei : σ → ρ → σ × ρ × Except ε (List μ))
    (ta : σ → F64 → σ) (un : σ → F64) (s : σ) :
    ({ status := st, events_ext := ee, events_int := ei, time_advance := ta,
       until_next_event := un } : AsModel σ ρ μ ε).get_type s = "" ∧
    ({ status := st, events_ext := ee, events_int := ei, time_advance := ta,
       until_next_event := un } : AsModel σ ρ μ ε).serialize s = Value.null :=
  ⟨rfl, rfl⟩

/-- C10: when `inner.serialize()` contains an entry keyed `id` or `type`,
the encoder still appends it after the two reserved entries — the key then
occurs both among the reserved entries and in the appended tail (a duplicate
key), with no collision detection and no failure. -/
theorem Model.serialize_reserved_key_collision (m : Model ρ μ ε)
    (entries : List (Value × Value)) (k v : Value)
    (hmap : m.inner.cap.serialize m.inner.state = Value.mapping entries)
    (hmem : (k, v) ∈ entries)
    (hres : keyIs "id" k = true ∨ keyIs "type" k = true) :
    Model.serialize m = Value.mapping
      ([(Value.str "id", Value.str m.id),
        (Value.str "type", Value.str (m.inner.cap.get_type m.inner.state))] ++
       entries) ∧
    (k, v) ∈ entries ∧
    k ∈ [Value.str "id", Value.str "type"] := by
  refine ⟨?_, hmem, ?_⟩
  · rw [Model.serialize_eq, hmap]
    rfl
  · cases k <;> simp [keyIs] at hres
    rcases hres with h | h <;> simp [h]

/-! ## Witnesses -/

/-- C1 witness: the spec's representative `Processor` instance with extra
fields `{a: 1, b: 2}` round-trips through the concrete registry. -/
theorem Model.deserialize_serialize_roundtrip_witness :
    (∀ kv ∈ (exampleModel.inner.cap.serialize exampleModel.inner.state).extraFields,
      keyIs "id" kv.1 = false ∧ keyIs "type" kv.1 = false) ∧
    exampleDecoders.decoderFor (exampleModel.inner.cap.get_type exampleModel.inner.state) =
      some exampleDecoders.processor ∧
    exampleDecoders.processor (Value.mapping
      (exampleModel.inner.cap.serialize exampleModel.inner.state).extraFields) =
      .ok ⟨Value, valueStoreCap, Value.mapping
        [(Value.str "a", Value.number 1), (Value.str "b", Value.number 2)]⟩ ∧
    ∃ m2 : Model Unit Unit String,
      Model.deserialize exampleDecoders (Model.serialize exampleModel) = .ok m2 ∧
      m2.id = exampleModel.id ∧
      m2.inner.cap.get_type m2.inner.state =
        exampleModel.inner.cap.get_type exampleModel.inner.state ∧
      (m2.inner.cap.serialize m2.inner.state).extraFields =
        (exampleModel.inner.cap.serialize exampleModel.inner.state).extraFields :=
  ⟨by decide, rfl, rfl,
   Model.deserialize_serialize_roundtrip exampleDecoders exampleModel
     exampleDecoders.processor
     ⟨Value, valueStoreCap, Value.mapping
       [(Value.str "a", Value.number 1), (Value.str "b", Value.number 2)]⟩
     (by decide) rfl rfl rfl rfl⟩

/-- C2 witness: the spec's flatten example, and a null-serializing model
emitting no extra entries. -/
theorem Model.serialize_flat_layout_witness :
    exampleModel.inner.cap.serialize exampleModel.inner.state = Value.mapping
      [(Value.str "a", Value.number 1), (Value.str "b", Value.number 2)] ∧
    Model.serialize exampleModel = Value.mapping
      [(Value.str "id", Value.str "m1"), (Value.str "type", Value.str "Processor"),
       (Value.str "a", Value.number 1), (Value.str "b", Value.number 2)] ∧
    (exampleNullModel.inner.cap.serialize exampleNullModel.inner.state).isMapping = false ∧
    Model.serialize exampleNullModel = Value.mapping
      [(Value.str "id", Value.str "n1"), (Value.str "type", Value.str "")] :=
  ⟨rfl, (Model.serialize_flat_layout exampleModel).1 _ rfl,
   rfl, (Model.serialize_flat_layout exampleNullModel).2 rfl⟩

/-- C3 witness: decoding `{id: "x", type: "Bogus"}` fails naming `"Bogus"`
and listing exactly the known tags in declared order. -/
theorem Model.deserialize_unknown_variant_witness :
    ModelRepr.deserialize exampleBogusInput = .ok ⟨"x", "Bogus", Value.mapping []⟩ ∧
    "Bogus" ∉ VARIANTS ∧
    Model.deserialize exampleDecoders exampleBogusInput =
      .error (.unknownVariant "Bogus"
        ["Generator", "ExclusiveGateway", "Processor", "Storage"]) :=
  ⟨rfl, by decide,
   Model.deserialize_unknown_variant exampleDecoders exampleBogusInput
     ⟨"x", "Bogus", Value.mapping []⟩ rfl (by decide)⟩

/-- C4 witness: decoding `{id: "x", type: "Processor", a: 1}` collects
`{a: 1}` as extra, applies the `Processor` decoder, and wraps the result
with id `"x"`. -/
theorem Model.deserialize_known_tag_dispatch_witness :
    ModelRepr.deserialize exampleProcessorInput =
      .ok ⟨"x", "Processor", Value.mapping [(Value.str "a", Value.number 1)]⟩ ∧
    Model.deserialize exampleDecoders exampleProcessorInput =
      dispatchResult
        (exampleDecoders.processor (Value.mapping [(Value.str "a", Value.number 1)])) "x" ∧
    Model.deserialize exampleDecoders exampleProcessorInput =
      .ok (Model.new "x" ⟨Value, valueStoreCap,
        Value.mapping [(Value.str "a", Value.number 1)]⟩) :=
  ⟨rfl,
   (Model.deserialize_known_tag_dispatch exampleDecoders
     [(Value.str "id", Value.str "x"), (Value.str "type", Value.str "Processor"),
      (Value.str "a", Value.number 1)]
     ⟨"x", "Processor", Value.mapping [(Value.str "a", Value.number 1)]⟩
     rfl).2.2.2.1 rfl,
   rfl⟩

/-- C6 witness: on a one-box heap, advancing the clone by 5 leaves the
original's horizon at 0 while the clone's becomes 5. -/
theorem HModel.clone_independence_witness :
    exampleHModel.ptr < exampleHeap.next ∧
    (HModel.clone exampleHeap exampleHModel).2.ptr ≠ exampleHModel.ptr ∧
    HModel.until_next_event exampleTimeCap
        (HModel.time_advance exampleTimeCap (HModel.clone exampleHeap exampleHModel).1
          (HModel.clone exampleHeap exampleHModel).2 (F64.fin 5))
        exampleHModel = F64.fin 0 ∧
    HModel.until_next_event exampleTimeCap
        (HModel.time_advance exampleTimeCap (HModel.clone exampleHeap exampleHModel).1
          (HModel.clone exampleHeap exampleHModel).2 (F64.fin 5))
        (HModel.clone exampleHeap exampleHModel).2 = F64.fin 5 :=
  ⟨by decide,
   (HModel.clone_independence exampleTimeCap exampleHeap exampleHModel
     (F64.fin 5) (by decide)).1,
   (HModel.clone_independence exampleTimeCap exampleHeap exampleHModel
     (F64.fin 5) (by decide)).2.1,
   (HModel.clone_independence exampleTimeCap exampleHeap exampleHModel
     (F64.fin 5) (by decide)).2.2⟩

/-- C8 witness: the defaults-based model with horizon `+∞` and a concrete
delta of 5. -/
theorem Model.time_bookkeeping_infallible_witness :
    (∀ s : exampleNullModel.inner.σ,
      (exampleNullModel.inner.cap.until_next_event s).nonneg = true) ∧
    (F64.fin 5).nonneg = true ∧
    (Model.until_next_event exampleNullModel).nonneg = true ∧
    Model.time_advance exampleNullModel (F64.fin 5) =
      Model.mk exampleNullModel.id ⟨exampleNullModel.inner.σ, exampleNullModel.inner.cap,
        exampleNullModel.inner.cap.time_advance exampleNullModel.inner.state (F64.fin 5)⟩ ∧
    (Model.until_next_event (Model.time_advance exampleNullModel (F64.fin 5))).nonneg = true :=
  ⟨fun _ => rfl, by decide,
   Model.time_bookkeeping_infallible exampleNullModel (F64.fin 5)
     (fun _ => rfl) (by decide)⟩

/-- C10 witness: a variant serializing a field literally named `id` still
gets it appended after the reserved entries, yielding a duplicate `id`
key. -/
theorem Model.serialize_reserved_key_collision_witness :
    exampleCollisionModel.inner.cap.serialize exampleCollisionModel.inner.state =
      Value.mapping [(Value.str "id", Value.number 5)] ∧
    ((Value.str "id", Value.number 5) ∈ [((Value.str "id" : Value), Value.number 5)]) ∧
    keyIs "id" (Value.str "id") = true ∧
    Model.serialize exampleCollisionModel = Value.mapping
      [(Value.str "id", Value.str "c1"), (Value.str "type", Value.str "Processor"),
       (Value.str "id", Value.number 5)] ∧
    Value.str "id" ∈ [Value.str "id", Value.str "type"] :=
  ⟨rfl, by simp, rfl,
   (Model.serialize_reserved_key_collision exampleCollisionModel
     [(Value.str "id", Value.number 5)] (Value.str "id") (Value.number 5)
     rfl (by simp) (Or.inl rfl)).1,
   (Model.serialize_reserved_key_collision exampleCollisionModel
     [(Value.str "id", Value.number 5)] (Value.str "id") (Value.number 5)
     rfl (by simp) (Or.inl rfl)).2.2⟩
